import Mathlib

/-!
Verification of the channel-reconciliation core of `epg_generator.py`.

The Python source is shallowly embedded: strings are Lean `String`s
(lists of characters), Python's ASCII case folding, `strip`, substring
test and `re.sub` character filtering are modelled character-wise, the
SAX handlers (`EPGChannelCollector`, `EPGFilter`) are folds of explicit
step functions over a list of parser events, and Python dicts (which
preserve insertion order, overwrite values in place on repeated
assignment, and keep the original key position) are association lists
with an order-preserving upsert.
-/

namespace PearTv

/-! ### Character-level primitives: Python `str.lower`, `str.strip`, `re.sub` -/

/-- Python `str.lower`, character-wise, for the ASCII range (`A`-`Z` map to
`a`-`z`, everything else is fixed). Channel identifiers and names in the
source data are ASCII. -/
def lowerChar (c : Char) : Char :=
  if 'A' ≤ c ∧ c ≤ 'Z' then Char.ofNat (c.toNat + 32) else c

/-- `str.lower` on a character list. -/
def lowerL (l : List Char) : List Char := l.map lowerChar

/-- The whitespace characters removed by Python `str.strip()` (ASCII set). -/
def isSpaceChar (c : Char) : Bool :=
  c = ' ' || c = '\t' || c = '\n' || c = '\r' || c = '\x0b' || c = '\x0c'

/-- Python `str.strip()` on a character list: drop leading and trailing
whitespace. -/
def stripL (l : List Char) : List Char :=
  ((l.dropWhile isSpaceChar).reverse.dropWhile isSpaceChar).reverse

/-- `s.lower()` for Lean strings. -/
def pyLower (s : String) : String := ⟨lowerL s.data⟩

/-- `s.lower().strip()` as used by `get_channel_aliases`. -/
def pyLowerStrip (s : String) : String := ⟨stripL (lowerL s.data)⟩

/-- Characters kept by `re.sub(r'[^a-z0-9]', '', -)`. -/
def compactChar (c : Char) : Bool :=
  decide (('a' ≤ c ∧ c ≤ 'z') ∨ ('0' ≤ c ∧ c ≤ '9'))

/-- `re.sub(r'[^a-z0-9]', '', s.lower())`: the "simplified" alias form. -/
def pyCompact (s : String) : String := ⟨(lowerL s.data).filter compactChar⟩

/-- Python's substring test `pat in s`, on character lists: does `s` start
with `pat`? -/
def beginsL : List Char → List Char → Bool
  | [], _ => true
  | _ :: _, [] => false
  | a :: as, b :: bs => a = b && beginsL as bs

/-- Python's substring test `pat in s`, on character lists. -/
def hasSubL (pat : List Char) : List Char → Bool
  | [] => pat.isEmpty
  | b :: bs => beginsL pat (b :: bs) || hasSubL pat bs

/-- Python `a in b` for strings (substring containment). -/
def pyIn (a b : String) : Bool := hasSubL a.data b.data

/-! ### Facts about the character primitives -/

theorem toNat_ofNat_valid (n : Nat) (h : n < 55296) : (Char.ofNat n).toNat = n := by
  unfold Char.ofNat
  rw [dif_pos]
  · rfl
  · exact Or.inl h

theorem lowerChar_eq_self (c : Char) (h : ¬ ('A' ≤ c ∧ c ≤ 'Z')) : lowerChar c = c := by
  unfold lowerChar
  rw [if_neg h]

theorem lowerChar_not_upper (c : Char) : ¬ ('A' ≤ lowerChar c ∧ lowerChar c ≤ 'Z') := by
  by_cases h : 'A' ≤ c ∧ c ≤ 'Z'
  · have hlow : lowerChar c = Char.ofNat (c.toNat + 32) := by
      unfold lowerChar
      rw [if_pos h]
    intro hcon
    have h1 : 65 ≤ c.toNat := h.1
    have h2 : (Char.ofNat (c.toNat + 32)).toNat = c.toNat + 32 := by
      have h1z : c.toNat ≤ 90 := h.2
      apply toNat_ofNat_valid
      omega
    have h3 : (Char.ofNat (c.toNat + 32)).toNat ≤ 90 := by
      rw [← hlow]
      exact hcon.2
    omega
  · rw [lowerChar_eq_self c h]
    exact h

theorem lowerChar_idem (c : Char) : lowerChar (lowerChar c) = lowerChar c :=
  lowerChar_eq_self (lowerChar c) (lowerChar_not_upper c)

theorem lowerChar_of_compact (c : Char) (h : compactChar c = true) : lowerChar c = c := by
  apply lowerChar_eq_self
  unfold compactChar at h
  rw [decide_eq_true_iff] at h
  intro hcon
  have h1 : 65 ≤ c.toNat := hcon.1
  have h2 : c.toNat ≤ 90 := hcon.2
  rcases h with h | h
  · have h3 : 97 ≤ c.toNat := h.1
    omega
  · have h3 : c.toNat ≤ 57 := h.2
    omega

theorem mem_map_eq_self {α : Type} (f : α → α) (l : List α)
    (h : ∀ a ∈ l, f a = a) : l.map f = l := by
  induction l with
  | nil => rfl
  | cons a t ih =>
    simp only [List.map_cons]
    rw [h a (by simp), ih (fun x hx => h x (by simp [hx]))]

theorem mem_of_mem_dropWhile {α : Type} (p : α → Bool) (l : List α) (x : α)
    (h : x ∈ l.dropWhile p) : x ∈ l := by
  induction l with
  | nil => simp [List.dropWhile] at h
  | cons a t ih =>
    by_cases hp : p a = true
    · simp only [List.dropWhile, hp] at h
      exact List.mem_cons_of_mem a (ih h)
    · simp only [List.dropWhile, Bool.not_eq_true] at h
      rw [Bool.not_eq_true] at hp
      rw [hp] at h
      exact h

theorem mem_of_mem_stripL (l : List Char) (x : Char) (h : x ∈ stripL l) : x ∈ l := by
  unfold stripL at h
  rw [List.mem_reverse] at h
  have h1 := mem_of_mem_dropWhile isSpaceChar (l.dropWhile isSpaceChar).reverse x h
  rw [List.mem_reverse] at h1
  exact mem_of_mem_dropWhile isSpaceChar l x h1

theorem dropWhile_head_false {α : Type} (p : α → Bool) (l : List α) (c : α) (cs : List α)
    (h : l.dropWhile p = c :: cs) : p c = false := by
  induction l with
  | nil => simp [List.dropWhile] at h
  | cons a t ih =>
    by_cases hp : p a = true
    · simp only [List.dropWhile, hp] at h
      exact ih h
    · rw [Bool.not_eq_true] at hp
      simp only [List.dropWhile, hp] at h
      injection h with h1 h2
      rw [← h1]
      exact hp

theorem dropWhile_of_head_false {α : Type} (p : α → Bool) (l : List α)
    (h : ∀ c cs, l = c :: cs → p c = false) : l.dropWhile p = l := by
  cases l with
  | nil => rfl
  | cons a t =>
    simp only [List.dropWhile, h a t rfl]

/-- The second `dropWhile` layer of `stripL`, written as a standalone
operation: drop trailing whitespace. -/
def dropTail (l : List Char) : List Char := (l.reverse.dropWhile isSpaceChar).reverse

theorem stripL_eq_dropTail_dropWhile (l : List Char) :
    stripL l = dropTail (l.dropWhile isSpaceChar) := rfl

theorem dropTail_decomp (l : List Char) : ∃ t, l = dropTail l ++ t := by
  refine ⟨(l.reverse.takeWhile isSpaceChar).reverse, ?_⟩
  have h := List.takeWhile_append_dropWhile (p := isSpaceChar) (l := l.reverse)
  unfold dropTail
  calc l = l.reverse.reverse := by rw [List.reverse_reverse]
    _ = (l.reverse.takeWhile isSpaceChar ++ l.reverse.dropWhile isSpaceChar).reverse := by rw [h]
    _ = (l.reverse.dropWhile isSpaceChar).reverse ++ (l.reverse.takeWhile isSpaceChar).reverse := by
          rw [List.reverse_append]

theorem dropWhile_dropTail (l : List Char) (hl : l.dropWhile isSpaceChar = l) :
    (dropTail l).dropWhile isSpaceChar = dropTail l := by
  apply dropWhile_of_head_false
  intro c cs hcons
  obtain ⟨t, ht⟩ := dropTail_decomp l
  rw [hcons] at ht
  apply dropWhile_head_false isSpaceChar l c (cs ++ t)
  rw [hl, ht, List.cons_append]

theorem dropTail_dropTail (l : List Char) : dropTail (dropTail l) = dropTail l := by
  unfold dropTail
  rw [List.reverse_reverse, List.dropWhile_idempotent]

theorem stripL_idem (l : List Char) : stripL (stripL l) = stripL l := by
  have hy : (l.dropWhile isSpaceChar).dropWhile isSpaceChar = l.dropWhile isSpaceChar :=
    List.dropWhile_idempotent isSpaceChar l
  have h1 : stripL l = dropTail (l.dropWhile isSpaceChar) := rfl
  rw [h1, stripL_eq_dropTail_dropWhile, dropWhile_dropTail _ hy, dropTail_dropTail]

theorem lowerL_stripL_lowerL (l : List Char) :
    lowerL (stripL (lowerL l)) = stripL (lowerL l) := by
  apply mem_map_eq_self
  intro c hc
  have h1 : c ∈ lowerL l := mem_of_mem_stripL _ c hc
  unfold lowerL at h1
  rw [List.mem_map] at h1
  obtain ⟨a, _, ha⟩ := h1
  rw [← ha]
  exact lowerChar_idem a

theorem filter_filter_self {α : Type} (p : α → Bool) (l : List α) :
    (l.filter p).filter p = l.filter p := by
  induction l with
  | nil => rfl
  | cons a t ih =>
    by_cases hp : p a = true
    · simp [List.filter, hp, ih]
    · rw [Bool.not_eq_true] at hp
      simp [List.filter, hp, ih]

theorem lowerL_filter_compact (l : List Char) :
    lowerL ((lowerL l).filter compactChar) = (lowerL l).filter compactChar := by
  apply mem_map_eq_self
  intro c hc
  rw [List.mem_filter] at hc
  exact lowerChar_of_compact c hc.2

/-! ### Data model -/

/-- One entry parsed out of the M3U playlist by `fetch_m3u_channels`: the
dict with keys `tvg-id`, `tvg-name`, `name` (each possibly `None`). The
stream URL is irrelevant to matching and omitted. -/
structure PlaylistChannel where
  tvgId : Option String
  tvgName : Option String
  name : Option String
  deriving DecidableEq

/-- Python truthiness of `channel.get(key)`: `None` and the empty string
are falsy. -/
def truthy : Option String → Bool
  | none => false
  | some s => s ≠ ""

/-- One guide channel as accumulated by `EPGChannelCollector`: the dict
`{'id': ..., 'names': set()}`. `gid` is the lowercased `id` attribute;
`names` models the `names` set (kept as an insertion-ordered,
duplicate-free list). -/
structure GuideChannel where
  gid : String
  names : List String
  deriving DecidableEq

/-- A SAX parser callback event: `startElement`, `characters`, or
`endElement`. -/
inductive SaxEvent where
  | startE (name : String) (attrs : List (String × String))
  | charsE (s : String)
  | endE (name : String)
  deriving DecidableEq

/-- `attrs.get(k, d)` on a SAX attribute mapping. -/
def attrsGet (attrs : List (String × String)) (k d : String) : String :=
  match attrs.find? (fun p => p.1 = k) with
  | some p => p.2
  | none => d

/-- Python dict assignment `m[k] = v` on an insertion-ordered association
list: an existing key keeps its position and gets its value replaced, a
new key is appended. Specialized to `GuideChannel` values. -/
def dictSetG (m : List (String × GuideChannel)) (k : String) (v : GuideChannel) :
    List (String × GuideChannel) :=
  if m.any (fun p => p.1 = k) then m.map (fun p => if p.1 = k then (k, v) else p)
  else m ++ [(k, v)]

/-- Python dict assignment `m[k] = v`, specialized to string values
(the `id_mapping` dict). -/
def dictSetS (m : List (String × String)) (k v : String) : List (String × String) :=
  if m.any (fun p => p.1 = k) then m.map (fun p => if p.1 = k then (k, v) else p)
  else m ++ [(k, v)]

/-- `set.add` on the insertion-ordered list model of a Python set. -/
def setAdd (ns : List String) (n : String) : List String :=
  if ns.contains n then ns else ns ++ [n]

/-! ### EPGChannelCollector: the guide channel index builder -/

/-- The mutable state of `EPGChannelCollector`. `current_text` models the
optional attribute tested by `hasattr(self, 'current_text')`; no method of
the class ever assigns it, which the embedding reflects by never producing
a `some`. -/
structure CollectorState where
  channel_data : List (String × GuideChannel)
  current_tag : String
  current_channel : Option GuideChannel
  current_text : Option String
  deriving DecidableEq

/-- `EPGChannelCollector.__init__`. -/
def initCollector : CollectorState :=
  { channel_data := [], current_tag := "", current_channel := none, current_text := none }

/-- `EPGChannelCollector.startElement`. -/
def collectStart (st : CollectorState) (name : String) (attrs : List (String × String)) :
    CollectorState :=
  let st1 := { st with current_tag := name }
  if name = "channel" then
    { st1 with current_channel := some { gid := pyLower (attrsGet attrs "id" ""), names := [] } }
  else st1

/-- `EPGChannelCollector.characters`: the body is `pass`. -/
def collectChars (st : CollectorState) (_s : String) : CollectorState := st

/-- `EPGChannelCollector.endElement`. -/
def collectEnd (st : CollectorState) (name : String) : CollectorState :=
  let st1 :=
    if name = "channel" then
      match st.current_channel with
      | some c => { st with channel_data := dictSetG st.channel_data c.gid c,
                            current_channel := none }
      | none => { st with current_channel := none }
    else if name = "display-name" ∧ st.current_channel.isSome ∧ st.current_tag = "display-name" then
      match st.current_text, st.current_channel with
      | some t, some c =>
          { st with current_channel := some { gid := c.gid, names := setAdd c.names (pyLower t) } }
      | _, _ => st
    else st
  { st1 with current_tag := "" }

/-- Dispatch one SAX event to the collector callbacks. -/
def collectStep (st : CollectorState) : SaxEvent → CollectorState
  | .startE n a => collectStart st n a
  | .charsE s => collectChars st s
  | .endE n => collectEnd st n

/-- Run `EPGChannelCollector` over a full event stream, as
`get_epg_channel_data` does via `parser.parse`. -/
def collectRun (evs : List SaxEvent) : CollectorState :=
  evs.foldl collectStep initCollector

/-! ### get_channel_aliases and create_id_mapping -/

/-- `get_channel_aliases`: the set of candidate keys for one playlist
channel (modelled as a list; only membership is consumed downstream). -/
def get_channel_aliases (ch : PlaylistChannel) : List String :=
  (match ch.tvgId with
   | some s => if s ≠ "" then [pyLowerStrip s] else []
   | none => []) ++
  (match ch.tvgName with
   | some s => if s ≠ "" then [pyLowerStrip s] else []
   | none => []) ++
  (match ch.name with
   | some s =>
     if s ≠ "" then
       [pyLowerStrip s] ++ (if pyCompact s ≠ "" then [pyCompact s] else [])
     else []
   | none => [])

/-- The first tier of `create_id_mapping`: the `for ... break` scan for an
index key contained in the alias set (first index entry wins). -/
def findExact (aliases : List String) : List (String × GuideChannel) → Option String
  | [] => none
  | (k, _) :: rest => if aliases.contains k then some k else findExact aliases rest

/-- The per-name test of the display-name tier:
`any(alias in epg_name or epg_name in alias for alias in channel_aliases)`. -/
def aliasNameHit (aliases : List String) (n : String) : Bool :=
  aliases.any (fun a => pyIn a n || pyIn n a)

/-- Whether a guide entry's display-name loop assigns a mapping for this
alias set (the inner `for epg_name ... break` fires for some name). -/
def nameHit (aliases : List String) (gc : GuideChannel) : Bool :=
  gc.names.any (fun n => aliasNameHit aliases n)

/-- The body of `create_id_mapping`'s outer loop for one playlist channel:
skip falsy `tvg-id`; try the exact-id tier with `break`; on the `else` of
the `for` run the display-name tier (whose inner `break` leaves the outer
scan running, so several index entries can be assigned). -/
def mapOneChannel (index : List (String × GuideChannel)) (m : List (String × String))
    (ch : PlaylistChannel) : List (String × String) :=
  if truthy ch.tvgId then
    match ch.tvgId with
    | some tid =>
      let aliases := get_channel_aliases ch
      match findExact aliases index with
      | some k => dictSetS m k tid
      | none =>
        index.foldl (fun m2 p => if nameHit aliases p.2 then dictSetS m2 p.1 tid else m2) m
    | none => m
  else m

/-- `create_id_mapping`. -/
def create_id_mapping (channels : List PlaylistChannel)
    (index : List (String × GuideChannel)) : List (String × String) :=
  channels.foldl (mapOneChannel index) []

/-- `create_id_mapping` with the display-name tier removed, used to state
that the name tier contributes nothing when every index entry has an empty
name set. -/
def mapOneChannelExact (index : List (String × GuideChannel)) (m : List (String × String))
    (ch : PlaylistChannel) : List (String × String) :=
  if truthy ch.tvgId then
    match ch.tvgId with
    | some tid =>
      match findExact (get_channel_aliases ch) index with
      | some k => dictSetS m k tid
      | none => m
    | none => m
  else m

/-- The exact-tier-only variant of `create_id_mapping`. -/
def create_id_mapping_exact (channels : List PlaylistChannel)
    (index : List (String × GuideChannel)) : List (String × String) :=
  channels.foldl (mapOneChannelExact index) []

/-! ### EPGFilter: the streaming guide filter/rewriter -/

/-- `epg_id in self.id_mapping`. -/
def dictMem (m : List (String × String)) (k : String) : Bool :=
  m.any (fun p => p.1 = k)

/-- `self.id_mapping[epg_id]` (callers only use it after a membership
check; an absent key yields `""` here). -/
def dictGetD (m : List (String × String)) (k : String) : String :=
  match m.find? (fun p => p.1 = k) with
  | some p => p.2
  | none => ""

/-- One string appended to `EPGFilter`'s buffer. Each constructor is one
`self.buffer.append(...)` site (the attribute pieces of the generic
open-tag site are folded into `otherOpen`); `renderTok` recovers the
appended text. -/
inductive OutTok where
  | chanOpen (oid : String)
  | progOpen (oid startA stopA : String)
  | otherOpen (name : String) (attrs : List (String × String))
  | textTok (s : String)
  | closeTok (name : String)
  deriving DecidableEq

/-- The mutable state of `EPGFilter`; `out` is the text written to the
output file so far, as a token list. -/
structure FilterState where
  in_channel : Bool
  in_programme : Bool
  current_channel_id : String
  buffer : List OutTok
  out : List OutTok
  channel_count : Nat
  programme_count : Nat
  deriving DecidableEq

/-- `EPGFilter.__init__`. -/
def initFilter : FilterState :=
  { in_channel := false, in_programme := false, current_channel_id := "",
    buffer := [], out := [], channel_count := 0, programme_count := 0 }

/-- `EPGFilter._flush_buffer`. -/
def flushBuffer (st : FilterState) : FilterState :=
  if st.buffer.isEmpty then st
  else { st with out := st.out ++ st.buffer, buffer := [] }

theorem out_set_ccid (st : FilterState) (s : String) :
    ({ st with current_channel_id := s }).out = st.out := rfl

theorem buffer_set_ccid (st : FilterState) (s : String) :
    ({ st with current_channel_id := s }).buffer = st.buffer := rfl

/-- `EPGFilter.startElement`. -/
def filterStart (m : List (String × String)) (st : FilterState) (name : String)
    (attrs : List (String × String)) : FilterState :=
  if name = "channel" then
    let epg_id := pyLower (attrsGet attrs "id" "")
    if dictMem m epg_id then
      { st with in_channel := true, current_channel_id := epg_id,
                buffer := st.buffer ++ [.chanOpen (dictGetD m epg_id)],
                channel_count := st.channel_count + 1 }
    else st
  else if name = "programme" then
    let epg_id := pyLower (attrsGet attrs "channel" "")
    if dictMem m epg_id then
      { st with in_programme := true,
                buffer := st.buffer ++
                  [.progOpen (dictGetD m epg_id) (attrsGet attrs "start" "")
                    (attrsGet attrs "stop" "")],
                programme_count := st.programme_count + 1 }
    else st
  else
    if (st.in_channel && dictMem m st.current_channel_id) ||
       (st.in_programme && dictMem m (pyLower (attrsGet attrs "channel" ""))) then
      { st with buffer := st.buffer ++ [.otherOpen name attrs] }
    else st

/-- `EPGFilter.characters`. -/
def filterChars (st : FilterState) (s : String) : FilterState :=
  if st.buffer.isEmpty then st
  else { st with buffer := st.buffer ++ [.textTok s] }

/-- `EPGFilter.endElement`. The channel arm clears `in_channel`, appends
and flushes only when the remembered channel id is mapped, and finally
resets `current_channel_id` (the membership test reads the id from before
the reset, as in the source; the conditional is hoisted outermost, which
is the same state function). -/
def filterEnd (m : List (String × String)) (st : FilterState) (name : String) : FilterState :=
  if name = "channel" then
    if dictMem m st.current_channel_id then
      { flushBuffer { st with in_channel := false,
                              buffer := st.buffer ++ [.closeTok "channel"] } with
        current_channel_id := "" }
    else { st with in_channel := false, current_channel_id := "" }
  else if name = "programme" then
    flushBuffer { st with in_programme := false, buffer := st.buffer ++ [.closeTok "programme"] }
  else
    if st.buffer.isEmpty then st
    else { st with buffer := st.buffer ++ [.closeTok name] }

/-- Dispatch one SAX event to the filter callbacks. -/
def filterStep (m : List (String × String)) (st : FilterState) : SaxEvent → FilterState
  | .startE n a => filterStart m st n a
  | .charsE s => filterChars st s
  | .endE n => filterEnd m st n

/-- Run `EPGFilter` over a full event stream, as `filter_epg` does via
`parser.parse`. -/
def runFilter (evs : List SaxEvent) (m : List (String × String)) : FilterState :=
  evs.foldl (filterStep m) initFilter

/-- The text of the attribute pieces appended for a generic open tag. -/
def renderAttrs : List (String × String) → String
  | [] => ""
  | (k, v) :: rest => " " ++ k ++ "=\"" ++ v ++ "\"" ++ renderAttrs rest

/-- The exact string the corresponding `self.buffer.append(...)` call
appended. -/
def renderTok : OutTok → String
  | .chanOpen oid => "<channel id=\"" ++ oid ++ "\">"
  | .progOpen oid a b =>
      "<programme channel=\"" ++ oid ++ "\" start=\"" ++ a ++ "\" stop=\"" ++ b ++ "\">"
  | .otherOpen n attrs => "<" ++ n ++ renderAttrs attrs ++ ">"
  | .textTok s => s
  | .closeTok n => "</" ++ n ++ ">"

/-- `''.join(...)` over the flushed buffers. -/
def renderToks (ts : List OutTok) : String :=
  String.join (ts.map renderTok)

/-- The fixed framing written by `filter_epg` before and after the SAX
pass. -/
def epgHeader : String :=
  "<?xml version=\"1.0\" encoding=\"UTF-8\"?>\n<!DOCTYPE tv SYSTEM \"xmltv.dtd\">\n<tv>\n"

/-- The full text `filter_epg` writes to the output file for a given
input event stream and id mapping. -/
def filter_epg_output (evs : List SaxEvent) (m : List (String × String)) : String :=
  epgHeader ++ renderToks (runFilter evs m).out ++ "</tv>\n"

/-! ### generate_epg: pipeline control flow -/

/-- The externally visible stages of `generate_epg`. -/
inductive Stage where
  | fetchPlaylist
  | downloadGuide
  | buildIndex
  | createMapping
  | filterGuide
  deriving DecidableEq

/-- Control-flow model of `generate_epg` on the cache-miss path with one
guide source and successful downloads: the stage sequence the run
executes. The playlist is fetched, then the guide is downloaded and
indexed and the mapping is built unconditionally; only then does the
`if not id_mapping: return` guard decide whether the filter pass (with
its own re-download) runs. -/
def generate_epg_trace (channels : List PlaylistChannel) (guide : List SaxEvent) : List Stage :=
  let mapping := create_id_mapping channels (collectRun guide).channel_data
  [Stage.fetchPlaylist, Stage.downloadGuide, Stage.buildIndex, Stage.createMapping] ++
    (if mapping.isEmpty then [] else [Stage.downloadGuide, Stage.filterGuide])

/-- The output document `generate_epg` writes, if any: `none` models the
`if not id_mapping: return` early exit that writes no file. -/
def generate_epg_output (channels : List PlaylistChannel) (guide : List SaxEvent) :
    Option String :=
  let mapping := create_id_mapping channels (collectRun guide).channel_data
  if mapping.isEmpty then none
  else some (filter_epg_output guide mapping)

/-! ### Generic fold lemmas -/

theorem foldl_preserve {σ α : Type} (f : σ → α → σ) (P : σ → Prop)
    (hstep : ∀ s a, P s → P (f s a)) :
    ∀ (l : List α) (s : σ), P s → P (l.foldl f s) := by
  intro l
  induction l with
  | nil => intro s hs; exact hs
  | cons a t ih => intro s hs; exact ih (f s a) (hstep s a hs)

theorem foldl_eq_of_step_eq {σ α : Type} (f g : σ → α → σ) (P : σ → Prop)
    (hstep : ∀ s a, P s → f s a = g s a) (hpres : ∀ s a, P s → P (f s a)) :
    ∀ (l : List α) (s : σ), P s → l.foldl f s = l.foldl g s := by
  intro l
  induction l with
  | nil => intro s _; rfl
  | cons a t ih =>
    intro s hs
    simp only [List.foldl_cons]
    rw [← hstep s a hs]
    exact ih (f s a) (hpres s a hs)

/-! ### Collector invariants -/

/-- Invariant of `EPGChannelCollector`'s state: `current_text` is never
assigned, every index entry is the canonical record with an empty name
set, and any in-flight channel has an empty name set. -/
def CollectorInv (st : CollectorState) : Prop :=
  st.current_text = none ∧
  (∀ p ∈ st.channel_data, p.2 = { gid := p.1, names := [] }) ∧
  (∀ c : GuideChannel, st.current_channel = some c → c.names = [])

theorem dictSetG_canon (m : List (String × GuideChannel)) (k : String) (v : GuideChannel)
    (hm : ∀ p ∈ m, p.2 = { gid := p.1, names := [] })
    (hv : v = { gid := k, names := [] }) :
    ∀ p ∈ dictSetG m k v, p.2 = { gid := p.1, names := [] } := by
  intro p hp
  unfold dictSetG at hp
  by_cases hk : m.any (fun q => q.1 = k) = true
  · rw [if_pos hk] at hp
    rw [List.mem_map] at hp
    obtain ⟨q, hq, hqp⟩ := hp
    by_cases hqk : q.1 = k
    · rw [if_pos hqk] at hqp
      rw [← hqp, hv]
    · rw [if_neg hqk] at hqp
      rw [← hqp]
      exact hm q hq
  · rw [if_neg hk] at hp
    rw [List.mem_append] at hp
    rcases hp with hp | hp
    · exact hm p hp
    · rw [List.mem_singleton] at hp
      rw [hp, hv]

theorem collectInv_step (st : CollectorState) (e : SaxEvent) (h : CollectorInv st) :
    CollectorInv (collectStep st e) := by
  obtain ⟨htext, hdata, hcur⟩ := h
  cases e with
  | startE n a =>
    simp only [collectStep, collectStart]
    by_cases hn : n = "channel"
    · simp only [if_pos hn]
      exact ⟨htext, hdata, fun c hc => by injection hc with hc; rw [← hc]⟩
    · simp only [if_neg hn]
      exact ⟨htext, hdata, hcur⟩
  | charsE s =>
    exact ⟨htext, hdata, hcur⟩
  | endE n =>
    simp only [collectStep, collectEnd]
    by_cases hn : n = "channel"
    · simp only [if_pos hn]
      cases hc : st.current_channel with
      | none =>
        simp only [hc]
        exact ⟨htext, hdata, by intro c hcon; exact absurd hcon (by simp)⟩
      | some c =>
        simp only [hc]
        refine ⟨htext, ?_, by intro c2 hcon; exact absurd hcon (by simp)⟩
        have hcn : c = { gid := c.gid, names := [] } := by
          have h1 := hcur c hc
          cases c
          simp only at h1
          rw [h1]
        exact dictSetG_canon st.channel_data c.gid c hdata hcn
    · simp only [if_neg hn]
      by_cases hd : n = "display-name" ∧ st.current_channel.isSome = true ∧
          st.current_tag = "display-name"
      · simp only [if_pos hd, htext]
        exact ⟨rfl, hdata, hcur⟩
      · simp only [if_neg hd]
        exact ⟨htext, hdata, hcur⟩

theorem collectRun_inv (evs : List SaxEvent) : CollectorInv (collectRun evs) :=
  foldl_preserve collectStep CollectorInv collectInv_step evs initCollector
    ⟨rfl, by intro p hp; simp [initCollector] at hp, by intro c hc; simp [initCollector] at hc⟩

/-! ### The first-seen index builder (from the spec's words) -/

/-- Modelled from the spec: "if the same lowercase id recurs, the index
keeps the first-seen occurrence (later duplicates are ignored for
matching purposes)" — insertion that leaves an existing key untouched. -/
def dictInsertNewG (m : List (String × GuideChannel)) (k : String) (v : GuideChannel) :
    List (String × GuideChannel) :=
  if m.any (fun p => p.1 = k) then m else m ++ [(k, v)]

/-- `EPGChannelCollector.endElement` with first-seen insertion in place of
dict overwrite. -/
def collectFirstEnd (st : CollectorState) (name : String) : CollectorState :=
  let st1 :=
    if name = "channel" then
      match st.current_channel with
      | some c => { st with channel_data := dictInsertNewG st.channel_data c.gid c,
                            current_channel := none }
      | none => { st with current_channel := none }
    else if name = "display-name" ∧ st.current_channel.isSome ∧ st.current_tag = "display-name" then
      match st.current_text, st.current_channel with
      | some t, some c =>
          { st with current_channel := some { gid := c.gid, names := setAdd c.names (pyLower t) } }
      | _, _ => st
    else st
  { st1 with current_tag := "" }

/-- The first-seen collector's event dispatch. -/
def collectFirstStep (st : CollectorState) : SaxEvent → CollectorState
  | .startE n a => collectStart st n a
  | .charsE s => collectChars st s
  | .endE n => collectFirstEnd st n

/-- Run of the first-seen index builder. -/
def collectFirstRun (evs : List SaxEvent) : CollectorState :=
  evs.foldl collectFirstStep initCollector

theorem dictSetG_canon_eq (m : List (String × GuideChannel)) (k : String)
    (hm : ∀ p ∈ m, p.2 = { gid := p.1, names := [] }) :
    dictSetG m k { gid := k, names := [] } = dictInsertNewG m k { gid := k, names := [] } := by
  unfold dictSetG dictInsertNewG
  by_cases hk : m.any (fun p => p.1 = k) = true
  · rw [if_pos hk, if_pos hk]
    apply mem_map_eq_self
    intro p hp
    by_cases hpk : p.1 = k
    · rw [if_pos hpk]
      have h1 := hm p hp
      cases p with
      | mk a b =>
        simp only at hpk h1
        rw [hpk] at h1 ⊢
        rw [h1]
    · rw [if_neg hpk]
  · rw [if_neg hk, if_neg hk]

theorem collectStep_eq_first (st : CollectorState) (e : SaxEvent) (h : CollectorInv st) :
    collectStep st e = collectFirstStep st e := by
  obtain ⟨htext, hdata, hcur⟩ := h
  cases e with
  | startE n a => rfl
  | charsE s => rfl
  | endE n =>
    simp only [collectStep, collectFirstStep, collectEnd, collectFirstEnd]
    by_cases hn : n = "channel"
    · simp only [if_pos hn]
      cases hc : st.current_channel with
      | none => simp only [hc]
      | some c =>
        simp only [hc]
        have hcn : c = { gid := c.gid, names := [] } := by
          have h1 := hcur c hc
          cases c
          simp only at h1
          rw [h1]
        have he : dictSetG st.channel_data c.gid c = dictInsertNewG st.channel_data c.gid c := by
          conv_lhs => rw [hcn]
          conv_rhs => rw [hcn]
          exact dictSetG_canon_eq st.channel_data c.gid hdata
        rw [he]
    · simp only [if_neg hn]

theorem collectRun_eq_first (evs : List SaxEvent) : collectRun evs = collectFirstRun evs :=
  foldl_eq_of_step_eq collectStep collectFirstStep CollectorInv collectStep_eq_first
    collectInv_step evs initCollector
    ⟨rfl, by intro p hp; simp [initCollector] at hp, by intro c hc; simp [initCollector] at hc⟩

/-! ### The display-name tier on an all-empty index -/

theorem nameTier_noop (aliases : List String) (tid : String)
    (index : List (String × GuideChannel))
    (hidx : ∀ p ∈ index, p.2.names = ([] : List String)) :
    ∀ m, index.foldl
      (fun m2 p => if nameHit aliases p.2 then dictSetS m2 p.1 tid else m2) m = m := by
  induction index with
  | nil => intro m; rfl
  | cons q rest ih =>
    intro m
    have hq : nameHit aliases q.2 = false := by
      unfold nameHit
      rw [hidx q (by simp)]
      rfl
    simp only [List.foldl_cons, hq, if_neg Bool.false_ne_true]
    exact ih (fun p hp => hidx p (by simp [hp])) m

theorem mapOneChannel_eq_exact (index : List (String × GuideChannel))
    (hidx : ∀ p ∈ index, p.2.names = ([] : List String))
    (m : List (String × String)) (ch : PlaylistChannel) :
    mapOneChannel index m ch = mapOneChannelExact index m ch := by
  simp only [mapOneChannel, mapOneChannelExact]
  by_cases ht : truthy ch.tvgId = true
  · simp only [if_pos ht]
    cases hid : ch.tvgId with
    | none => simp only [hid]
    | some tid =>
      simp only [hid]
      cases hf : findExact (get_channel_aliases ch) index with
      | none =>
        simp only [hf]
        exact nameTier_noop (get_channel_aliases ch) tid index hidx m
      | some k => simp only [hf]
  · simp only [if_neg ht]

theorem create_id_mapping_eq_exact (channels : List PlaylistChannel)
    (index : List (String × GuideChannel))
    (hidx : ∀ p ∈ index, p.2.names = ([] : List String)) :
    create_id_mapping channels index = create_id_mapping_exact channels index :=
  foldl_eq_of_step_eq (mapOneChannel index) (mapOneChannelExact index) (fun _ => True)
    (fun m ch _ => mapOneChannel_eq_exact index hidx m ch)
    (fun _ _ _ => trivial) channels [] trivial

/-! ### Mapping keys stay duplicate-free -/

theorem dictSetS_fst_nodup (m : List (String × String)) (k v : String)
    (h : (m.map Prod.fst).Nodup) : ((dictSetS m k v).map Prod.fst).Nodup := by
  unfold dictSetS
  by_cases hk : m.any (fun p => p.1 = k) = true
  · rw [if_pos hk]
    have hmap : (m.map (fun p => if p.1 = k then (k, v) else p)).map Prod.fst
        = m.map Prod.fst := by
      rw [List.map_map]
      apply List.map_congr_left
      intro p _
      by_cases hp : p.1 = k
      · simp [hp]
      · simp [hp]
    rw [hmap]
    exact h
  · rw [if_neg hk]
    rw [List.map_append]
    refine List.Nodup.append h (by simp) ?_
    intro a ha hb
    simp only [List.map_cons, List.map_nil, List.mem_singleton] at hb
    rw [List.mem_map] at ha
    obtain ⟨p, hp, hpa⟩ := ha
    rw [Bool.not_eq_true] at hk
    have hall : ∀ x ∈ m, ¬ (x.1 = k) := by
      intro x hx hxk
      have h1 : m.any (fun p => p.1 = k) = true := by
        rw [List.any_eq_true]
        exact ⟨x, hx, by simp [hxk]⟩
      rw [hk] at h1
      exact Bool.false_ne_true h1
    exact hall p hp (by rw [hpa, hb])

theorem mapOneChannel_keys_nodup (index : List (String × GuideChannel))
    (m : List (String × String)) (ch : PlaylistChannel)
    (h : (m.map Prod.fst).Nodup) :
    ((mapOneChannel index m ch).map Prod.fst).Nodup := by
  simp only [mapOneChannel]
  by_cases ht : truthy ch.tvgId = true
  · simp only [if_pos ht]
    cases hid : ch.tvgId with
    | none => exact h
    | some tid =>
      simp only [hid]
      cases hf : findExact (get_channel_aliases ch) index with
      | some k =>
        simp only [hf]
        exact dictSetS_fst_nodup m k tid h
      | none =>
        simp only [hf]
        refine foldl_preserve _ (fun m2 => (m2.map Prod.fst).Nodup) ?_ index m h
        intro m2 p hp
        by_cases hh : nameHit (get_channel_aliases ch) p.2 = true
        · simp only [if_pos hh]
          exact dictSetS_fst_nodup m2 p.1 tid hp
        · simp only [if_neg hh]
          exact hp
  · simp only [if_neg ht]
    exact h

theorem create_id_mapping_keys_nodup (channels : List PlaylistChannel)
    (index : List (String × GuideChannel)) :
    ((create_id_mapping channels index).map Prod.fst).Nodup :=
  foldl_preserve (mapOneChannel index) (fun m => (m.map Prod.fst).Nodup)
    (fun m ch hm => mapOneChannel_keys_nodup index m ch hm) channels [] (by simp)

/-! ### Filter output identifiers come from the mapping -/

/-- The identifier carried by an output token, if any, is a value of the
mapping. -/
def tokOk (m : List (String × String)) : OutTok → Prop
  | .chanOpen oid => oid ∈ m.map Prod.snd
  | .progOpen oid _ _ => oid ∈ m.map Prod.snd
  | .otherOpen _ _ => True
  | .textTok _ => True
  | .closeTok _ => True

/-- Both the written output and the pending buffer contain only tokens
whose identifier (if any) is a mapping value. -/
def FilterTokInv (m : List (String × String)) (st : FilterState) : Prop :=
  (∀ t ∈ st.out, tokOk m t) ∧ (∀ t ∈ st.buffer, tokOk m t)

theorem forall_mem_append_of {α : Type} {P : α → Prop} {l1 l2 : List α}
    (h1 : ∀ t ∈ l1, P t) (h2 : ∀ t ∈ l2, P t) : ∀ t ∈ l1 ++ l2, P t := by
  intro t ht
  rw [List.mem_append] at ht
  rcases ht with ht | ht
  · exact h1 t ht
  · exact h2 t ht

theorem dictGetD_mem_values (m : List (String × String)) (k : String)
    (h : dictMem m k = true) : dictGetD m k ∈ m.map Prod.snd := by
  unfold dictMem at h
  rw [List.any_eq_true] at h
  obtain ⟨p, hp, hpk⟩ := h
  unfold dictGetD
  cases hfind : m.find? (fun p => p.1 = k) with
  | none =>
    exfalso
    rw [List.find?_eq_none] at hfind
    exact absurd hpk (by simpa using hfind p hp)
  | some q =>
    exact List.mem_map_of_mem Prod.snd (List.mem_of_find?_eq_some hfind)

theorem flushBuffer_tokInv (m : List (String × String)) (st : FilterState)
    (h : FilterTokInv m st) : FilterTokInv m (flushBuffer st) := by
  unfold flushBuffer
  by_cases hb : st.buffer.isEmpty = true
  · rw [if_pos hb]
    exact h
  · rw [if_neg hb]
    refine ⟨forall_mem_append_of h.1 h.2, ?_⟩
    intro t ht
    exact absurd ht (by simp)

theorem filterStep_tokInv (m : List (String × String)) (st : FilterState) (e : SaxEvent)
    (h : FilterTokInv m st) : FilterTokInv m (filterStep m st e) := by
  obtain ⟨hout, hbuf⟩ := h
  cases e with
  | startE n attrs =>
    simp only [filterStep, filterStart]
    by_cases hn : n = "channel"
    · simp only [if_pos hn]
      by_cases hmem : dictMem m (pyLower (attrsGet attrs "id" "")) = true
      · simp only [if_pos hmem]
        refine ⟨hout, forall_mem_append_of hbuf ?_⟩
        intro t ht
        rw [List.mem_singleton] at ht
        rw [ht]
        exact dictGetD_mem_values m _ hmem
      · simp only [if_neg hmem]
        exact ⟨hout, hbuf⟩
    · simp only [if_neg hn]
      by_cases hp : n = "programme"
      · simp only [if_pos hp]
        by_cases hmem : dictMem m (pyLower (attrsGet attrs "channel" "")) = true
        · simp only [if_pos hmem]
          refine ⟨hout, forall_mem_append_of hbuf ?_⟩
          intro t ht
          rw [List.mem_singleton] at ht
          rw [ht]
          exact dictGetD_mem_values m _ hmem
        · simp only [if_neg hmem]
          exact ⟨hout, hbuf⟩
      · simp only [if_neg hp]
        by_cases hc : ((st.in_channel && dictMem m st.current_channel_id) ||
            (st.in_programme && dictMem m (pyLower (attrsGet attrs "channel" "")))) = true
        · simp only [if_pos hc]
          refine ⟨hout, forall_mem_append_of hbuf ?_⟩
          intro t ht
          rw [List.mem_singleton] at ht
          rw [ht]
          trivial
        · simp only [if_neg hc]
          exact ⟨hout, hbuf⟩
  | charsE s =>
    simp only [filterStep, filterChars]
    by_cases hb : st.buffer.isEmpty = true
    · simp only [if_pos hb]
      exact ⟨hout, hbuf⟩
    · simp only [if_neg hb]
      refine ⟨hout, forall_mem_append_of hbuf ?_⟩
      intro t ht
      rw [List.mem_singleton] at ht
      rw [ht]
      trivial
  | endE n =>
    simp only [filterStep, filterEnd]
    by_cases hn : n = "channel"
    · rw [if_pos hn]
      by_cases hmem : dictMem m st.current_channel_id = true
      · rw [if_pos hmem]
        have h1 : FilterTokInv m (flushBuffer
            { st with in_channel := false,
                      buffer := st.buffer ++ [OutTok.closeTok "channel"] }) := by
          apply flushBuffer_tokInv
          refine ⟨hout, forall_mem_append_of hbuf ?_⟩
          intro t ht
          rw [List.mem_singleton] at ht
          rw [ht]
          trivial
        exact ⟨h1.1, h1.2⟩
      · rw [if_neg hmem]
        exact ⟨hout, hbuf⟩
    · simp only [if_neg hn]
      by_cases hp : n = "programme"
      · simp only [if_pos hp]
        have h1 : FilterTokInv m (flushBuffer
            { st with in_programme := false,
                      buffer := st.buffer ++ [OutTok.closeTok "programme"] }) := by
          apply flushBuffer_tokInv
          refine ⟨hout, forall_mem_append_of hbuf ?_⟩
          intro t ht
          rw [List.mem_singleton] at ht
          rw [ht]
          trivial
        exact h1
      · simp only [if_neg hp]
        by_cases hb : st.buffer.isEmpty = true
        · simp only [if_pos hb]
          exact ⟨hout, hbuf⟩
        · simp only [if_neg hb]
          refine ⟨hout, forall_mem_append_of hbuf ?_⟩
          intro t ht
          rw [List.mem_singleton] at ht
          rw [ht]
          trivial

theorem runFilter_tokInv (evs : List SaxEvent) (m : List (String × String)) :
    FilterTokInv m (runFilter evs m) :=
  foldl_preserve (filterStep m) (FilterTokInv m) (filterStep_tokInv m) evs initFilter
    ⟨by intro t ht; simp [initFilter] at ht, by intro t ht; simp [initFilter] at ht⟩

/-! ### Counting programme tags in the filter output -/

/-- How many tokens of a list satisfy a predicate. -/
def countTok (p : OutTok → Bool) (ts : List OutTok) : Nat := (ts.filter p).length

/-- Is this token the literal closing programme tag? -/
def isCloseProg : OutTok → Bool
  | .closeTok n => n = "programme"
  | _ => false

/-- Is this token a programme open tag? -/
def isProgOpen : OutTok → Bool
  | .progOpen _ _ _ => true
  | _ => false

/-- Is this event the `endElement` of a programme node? -/
def isEndProg : SaxEvent → Bool
  | .endE n => n = "programme"
  | _ => false

/-- Is this event the `startElement` of a programme node? -/
def isStartProg : SaxEvent → Bool
  | .startE n _ => n = "programme"
  | _ => false

/-- Programme start whose lowercased channel attribute is a mapping key. -/
def isMappedStartProg (m : List (String × String)) : SaxEvent → Bool
  | .startE n attrs => n = "programme" && dictMem m (pyLower (attrsGet attrs "channel" ""))
  | _ => false

/-- Programme start whose lowercased channel attribute is not a mapping
key. -/
def isUnmappedStartProg (m : List (String × String)) : SaxEvent → Bool
  | .startE n attrs => n = "programme" && !(dictMem m (pyLower (attrsGet attrs "channel" "")))
  | _ => false

/-- How many events of a stream satisfy a predicate. -/
def countEv (p : SaxEvent → Bool) (evs : List SaxEvent) : Nat := (evs.filter p).length

theorem countTok_append (p : OutTok → Bool) (a b : List OutTok) :
    countTok p (a ++ b) = countTok p a + countTok p b := by
  unfold countTok
  rw [List.filter_append, List.length_append]

theorem countTok_singleton (p : OutTok → Bool) (t : OutTok) :
    countTok p [t] = if p t then 1 else 0 := by
  unfold countTok
  by_cases h : p t = true
  · simp [List.filter_cons, h]
  · simp [List.filter_cons, h]

theorem countEv_cons (p : SaxEvent → Bool) (e : SaxEvent) (rest : List SaxEvent) :
    countEv p (e :: rest) = (if p e then 1 else 0) + countEv p rest := by
  unfold countEv
  by_cases h : p e = true
  · simp [List.filter_cons, h]
    omega
  · simp [List.filter_cons, h]

theorem flushBuffer_count_sum (p : OutTok → Bool) (st : FilterState) :
    countTok p (flushBuffer st).out + countTok p (flushBuffer st).buffer
      = countTok p st.out + countTok p st.buffer := by
  unfold flushBuffer
  by_cases hb : st.buffer.isEmpty = true
  · rw [if_pos hb]
  · rw [if_neg hb]
    simp only [countTok_append]
    have h0 : countTok p [] = 0 := rfl
    rw [h0]
    omega

theorem flushBuffer_buffer_nonempty (st : FilterState) (h : st.buffer.isEmpty = false) :
    (flushBuffer st).buffer = [] := by
  unfold flushBuffer
  have hne : ¬ st.buffer.isEmpty = true := by
    rw [h]
    exact Bool.false_ne_true
  rw [if_neg hne]

theorem flushBuffer_buffer_count (p : OutTok → Bool) (st : FilterState)
    (h : countTok p st.buffer = 0) : countTok p (flushBuffer st).buffer = 0 := by
  unfold flushBuffer
  by_cases hb : st.buffer.isEmpty = true
  · rw [if_pos hb]
    exact h
  · rw [if_neg hb]
    rfl

theorem flushBuffer_out_count (p : OutTok → Bool) (st : FilterState) :
    countTok p (flushBuffer st).out = countTok p st.out + countTok p st.buffer := by
  unfold flushBuffer
  by_cases hb : st.buffer.isEmpty = true
  · rw [if_pos hb]
    have h0 : st.buffer = [] := by
      cases hc : st.buffer with
      | nil => rfl
      | cons a t => rw [hc] at hb; simp at hb
    rw [h0]
    rfl
  · rw [if_neg hb]
    exact countTok_append p st.out st.buffer

theorem filterStep_close_count (m : List (String × String)) (st : FilterState) (e : SaxEvent)
    (hb : countTok isCloseProg st.buffer = 0) :
    countTok isCloseProg (filterStep m st e).out
      = countTok isCloseProg st.out + (if isEndProg e then 1 else 0) ∧
    countTok isCloseProg (filterStep m st e).buffer = 0 := by
  cases e with
  | startE n attrs =>
    have hend : isEndProg (SaxEvent.startE n attrs) = false := rfl
    rw [hend]
    simp only [filterStep, filterStart]
    by_cases hn : n = "channel"
    · simp only [if_pos hn]
      by_cases hmem : dictMem m (pyLower (attrsGet attrs "id" "")) = true
      · simp only [if_pos hmem]
        refine ⟨by simp, ?_⟩
        simp only [countTok_append, hb, countTok_singleton]
        rfl
      · simp only [if_neg hmem]
        exact ⟨by simp, hb⟩
    · simp only [if_neg hn]
      by_cases hp : n = "programme"
      · simp only [if_pos hp]
        by_cases hmem : dictMem m (pyLower (attrsGet attrs "channel" "")) = true
        · simp only [if_pos hmem]
          refine ⟨by simp, ?_⟩
          simp only [countTok_append, hb, countTok_singleton]
          rfl
        · simp only [if_neg hmem]
          exact ⟨by simp, hb⟩
      · simp only [if_neg hp]
        by_cases hc : ((st.in_channel && dictMem m st.current_channel_id) ||
            (st.in_programme && dictMem m (pyLower (attrsGet attrs "channel" "")))) = true
        · simp only [if_pos hc]
          refine ⟨by simp, ?_⟩
          simp only [countTok_append, hb, countTok_singleton]
          rfl
        · simp only [if_neg hc]
          exact ⟨by simp, hb⟩
  | charsE s =>
    have hend : isEndProg (SaxEvent.charsE s) = false := rfl
    rw [hend]
    simp only [filterStep, filterChars]
    by_cases hbe : st.buffer.isEmpty = true
    · simp only [if_pos hbe]
      exact ⟨by simp, hb⟩
    · simp only [if_neg hbe]
      refine ⟨by simp, ?_⟩
      simp only [countTok_append, hb, countTok_singleton]
      rfl
  | endE n =>
    simp only [filterStep, filterEnd]
    by_cases hn : n = "channel"
    · have hend : isEndProg (SaxEvent.endE n) = false := by
        rw [hn]
        decide
      rw [hend, if_pos hn]
      by_cases hmem : dictMem m st.current_channel_id = true
      · rw [if_pos hmem]
        constructor
        · rw [out_set_ccid, flushBuffer_out_count]
          simp only [countTok_append, hb, countTok_singleton]
          simp [isCloseProg]
        · rw [buffer_set_ccid]
          apply flushBuffer_buffer_count
          simp only [countTok_append, hb, countTok_singleton]
          simp [isCloseProg]
      · rw [if_neg hmem]
        exact ⟨by simp, hb⟩
    · by_cases hp : n = "programme"
      · have hend : isEndProg (SaxEvent.endE n) = true := by
          rw [hp]
          decide
        rw [hend, if_neg hn, if_pos hp]
        constructor
        · rw [flushBuffer_out_count]
          simp [countTok_append, hb, countTok_singleton, isCloseProg]
        · rw [flushBuffer_buffer_nonempty _ (by simp)]
          rfl
      · have hend : isEndProg (SaxEvent.endE n) = false := by
          simp [isEndProg, hp]
        rw [hend, if_neg hn, if_neg hp]
        by_cases hbe : st.buffer.isEmpty = true
        · simp only [if_pos hbe]
          exact ⟨by simp, hb⟩
        · simp only [if_neg hbe]
          refine ⟨by simp, ?_⟩
          simp only [countTok_append, hb, countTok_singleton]
          simp [isCloseProg, hp]

theorem runFilter_close_count_from (m : List (String × String)) :
    ∀ (evs : List SaxEvent) (st : FilterState), countTok isCloseProg st.buffer = 0 →
      countTok isCloseProg ((evs.foldl (filterStep m) st).out)
        = countTok isCloseProg st.out + countEv isEndProg evs ∧
      countTok isCloseProg ((evs.foldl (filterStep m) st).buffer) = 0 := by
  intro evs
  induction evs with
  | nil =>
    intro st h
    refine ⟨?_, h⟩
    have h0 : countEv isEndProg [] = 0 := rfl
    rw [List.foldl_nil, h0]
    omega
  | cons e rest ih =>
    intro st h
    obtain ⟨h1, h2⟩ := filterStep_close_count m st e h
    obtain ⟨h3, h4⟩ := ih (filterStep m st e) h2
    refine ⟨?_, by rw [List.foldl_cons]; exact h4⟩
    rw [List.foldl_cons, h3, h1, countEv_cons]
    omega

/-- The closing programme tags flushed to the output file are exactly one
per programme `endElement` event in the input. -/
theorem runFilter_close_count (evs : List SaxEvent) (m : List (String × String)) :
    countTok isCloseProg (runFilter evs m).out = countEv isEndProg evs ∧
    countTok isCloseProg (runFilter evs m).buffer = 0 := by
  have h := runFilter_close_count_from m evs initFilter rfl
  have h0 : countTok isCloseProg initFilter.out = 0 := rfl
  rw [h0] at h
  rw [runFilter]
  refine ⟨?_, h.2⟩
  rw [h.1]
  omega

theorem filterStep_open_count (m : List (String × String)) (st : FilterState) (e : SaxEvent) :
    countTok isProgOpen (filterStep m st e).out + countTok isProgOpen (filterStep m st e).buffer
      = countTok isProgOpen st.out + countTok isProgOpen st.buffer
        + (if isMappedStartProg m e then 1 else 0) := by
  cases e with
  | startE n attrs =>
    simp only [filterStep, filterStart]
    by_cases hn : n = "channel"
    · have hmsp : isMappedStartProg m (SaxEvent.startE n attrs) = false := by
        simp [isMappedStartProg, hn]
      rw [hmsp, if_pos hn]
      by_cases hmem : dictMem m (pyLower (attrsGet attrs "id" "")) = true
      · rw [if_pos hmem]
        simp [countTok_append, countTok_singleton, isProgOpen]
      · rw [if_neg hmem]
        simp
    · rw [if_neg hn]
      by_cases hp : n = "programme"
      · by_cases hmem : dictMem m (pyLower (attrsGet attrs "channel" "")) = true
        · have hmsp : isMappedStartProg m (SaxEvent.startE n attrs) = true := by
            simp [isMappedStartProg, hp, hmem]
          rw [hmsp, if_pos hp, if_pos hmem]
          simp [countTok_append, countTok_singleton, isProgOpen]
          omega
        · have hmsp : isMappedStartProg m (SaxEvent.startE n attrs) = false := by
            simp [isMappedStartProg, hp, hmem]
          rw [hmsp, if_pos hp, if_neg hmem]
          simp
      · have hmsp : isMappedStartProg m (SaxEvent.startE n attrs) = false := by
          simp [isMappedStartProg, hp]
        rw [hmsp, if_neg hp]
        by_cases hc : ((st.in_channel && dictMem m st.current_channel_id) ||
            (st.in_programme && dictMem m (pyLower (attrsGet attrs "channel" "")))) = true
        · rw [if_pos hc]
          simp [countTok_append, countTok_singleton, isProgOpen]
        · rw [if_neg hc]
          simp
  | charsE s =>
    have hmsp : isMappedStartProg m (SaxEvent.charsE s) = false := rfl
    rw [hmsp]
    simp only [filterStep, filterChars]
    by_cases hbe : st.buffer.isEmpty = true
    · rw [if_pos hbe]
      simp
    · rw [if_neg hbe]
      simp [countTok_append, countTok_singleton, isProgOpen]
  | endE n =>
    have hmsp : isMappedStartProg m (SaxEvent.endE n) = false := rfl
    rw [hmsp]
    simp only [filterStep, filterEnd]
    by_cases hn : n = "channel"
    · rw [if_pos hn]
      by_cases hmem : dictMem m st.current_channel_id = true
      · rw [if_pos hmem, out_set_ccid, buffer_set_ccid]
        have hsum := flushBuffer_count_sum isProgOpen
          { st with in_channel := false, buffer := st.buffer ++ [OutTok.closeTok "channel"] }
        rw [hsum]
        simp [countTok_append, countTok_singleton, isProgOpen]
      · rw [if_neg hmem]
        simp
    · rw [if_neg hn]
      by_cases hp : n = "programme"
      · rw [if_pos hp]
        have hsum := flushBuffer_count_sum isProgOpen
          { st with in_programme := false, buffer := st.buffer ++ [OutTok.closeTok "programme"] }
        rw [hsum]
        simp [countTok_append, countTok_singleton, isProgOpen]
      · rw [if_neg hp]
        by_cases hbe : st.buffer.isEmpty = true
        · rw [if_pos hbe]
          simp
        · rw [if_neg hbe]
          simp [countTok_append, countTok_singleton, isProgOpen]

theorem runFilter_open_count_from (m : List (String × String)) :
    ∀ (evs : List SaxEvent) (st : FilterState),
      countTok isProgOpen ((evs.foldl (filterStep m) st).out)
          + countTok isProgOpen ((evs.foldl (filterStep m) st).buffer)
        = countTok isProgOpen st.out + countTok isProgOpen st.buffer
          + countEv (isMappedStartProg m) evs := by
  intro evs
  induction evs with
  | nil =>
    intro st
    have h0 : countEv (isMappedStartProg m) [] = 0 := rfl
    rw [List.foldl_nil, h0]
    omega
  | cons e rest ih =>
    intro st
    rw [List.foldl_cons, ih (filterStep m st e), filterStep_open_count m st e, countEv_cons]
    omega

/-- The programme open tags, across written output and pending buffer, are
exactly one per mapped programme `startElement` event. -/
theorem runFilter_open_count (evs : List SaxEvent) (m : List (String × String)) :
    countTok isProgOpen (runFilter evs m).out + countTok isProgOpen (runFilter evs m).buffer
      = countEv (isMappedStartProg m) evs := by
  have h := runFilter_open_count_from m evs initFilter
  have h1 : countTok isProgOpen initFilter.out = 0 := rfl
  have h2 : countTok isProgOpen initFilter.buffer = 0 := rfl
  rw [h1, h2] at h
  rw [runFilter]
  omega

theorem countEv_start_split (m : List (String × String)) (evs : List SaxEvent) :
    countEv isStartProg evs
      = countEv (isMappedStartProg m) evs + countEv (isUnmappedStartProg m) evs := by
  induction evs with
  | nil => rfl
  | cons e rest ih =>
    rw [countEv_cons, countEv_cons, countEv_cons, ih]
    have hsplit : (if isStartProg e then 1 else 0)
        = (if isMappedStartProg m e then 1 else 0)
          + (if isUnmappedStartProg m e then 1 else 0) := by
      cases e with
      | startE n attrs =>
        by_cases hn : n = "programme"
        · by_cases hm : dictMem m (pyLower (attrsGet attrs "channel" "")) = true
          · simp [isStartProg, isMappedStartProg, isUnmappedStartProg, hn, hm]
          · simp [isStartProg, isMappedStartProg, isUnmappedStartProg, hn, hm]
        · simp [isStartProg, isMappedStartProg, isUnmappedStartProg, hn]
      | charsE s => simp [isStartProg, isMappedStartProg, isUnmappedStartProg]
      | endE n => simp [isStartProg, isMappedStartProg, isUnmappedStartProg]
    omega

/-! ### A mapping-quiet stream leaves the filter in its initial state -/

/-- Events the filter cannot react to: channel and programme opens whose
lowercased identifier is not a mapping key, text, and non-programme
closes (a programme close always emits, see the counting lemmas). -/
def quietEvent (m : List (String × String)) : SaxEvent → Bool
  | .startE n attrs =>
      if n = "channel" then dictMem m (pyLower (attrsGet attrs "id" "")) = false
      else if n = "programme" then dictMem m (pyLower (attrsGet attrs "channel" "")) = false
      else true
  | .charsE _ => true
  | .endE n => n ≠ "programme"

theorem filterStep_quiet (m : List (String × String)) (e : SaxEvent)
    (h0 : dictMem m "" = false) (hq : quietEvent m e = true) :
    filterStep m initFilter e = initFilter := by
  cases e with
  | startE n attrs =>
    simp only [filterStep, filterStart]
    by_cases hn : n = "channel"
    · rw [if_pos hn]
      have hmem : dictMem m (pyLower (attrsGet attrs "id" "")) = false := by
        simp only [quietEvent, if_pos hn, decide_eq_true_eq] at hq
        exact hq
      rw [if_neg ((by rw [hmem]; exact Bool.false_ne_true) :
        ¬ dictMem m (pyLower (attrsGet attrs "id" "")) = true)]
    · rw [if_neg hn]
      by_cases hp : n = "programme"
      · rw [if_pos hp]
        have hmem : dictMem m (pyLower (attrsGet attrs "channel" "")) = false := by
          simp only [quietEvent, if_neg hn, if_pos hp, decide_eq_true_eq] at hq
          exact hq
        rw [if_neg ((by rw [hmem]; exact Bool.false_ne_true) :
          ¬ dictMem m (pyLower (attrsGet attrs "channel" "")) = true)]
      · rw [if_neg hp]
        rw [if_neg (by simp [initFilter])]
  | charsE s =>
    rfl
  | endE n =>
    have hp : ¬ n = "programme" := by
      simp only [quietEvent, ne_eq, decide_eq_true_eq] at hq
      exact hq
    simp only [filterStep, filterEnd]
    by_cases hn : n = "channel"
    · rw [if_pos hn]
      rw [if_neg ((by show ¬ dictMem m "" = true
                      rw [h0]
                      exact Bool.false_ne_true) :
        ¬ dictMem m initFilter.current_channel_id = true)]
      rfl
    · rw [if_neg hn, if_neg hp]
      rfl

theorem runFilter_quiet (m : List (String × String)) (h0 : dictMem m "" = false) :
    ∀ evs : List SaxEvent, (∀ e ∈ evs, quietEvent m e = true) → runFilter evs m = initFilter := by
  intro evs
  induction evs with
  | nil => intro _; rfl
  | cons e rest ih =>
    intro hq
    have h1 : filterStep m initFilter e = initFilter := filterStep_quiet m e h0 (hq e (by simp))
    rw [runFilter, List.foldl_cons, h1]
    exact ih (fun x hx => hq x (by simp [hx]))

/-! ### Concrete scenario data -/

/-- The C3 scenario's playlist channel: `tvg-name="Al Jazeera HD"` plus a
`tvg-id` (the matcher skips entries without one). -/
def alJazeeraChannel : PlaylistChannel :=
  { tvgId := some "aj1", tvgName := some "Al Jazeera HD", name := none }

/-- Guide document with one channel `id="aljazeera"` and a display name
`Al Jazeera`, as a SAX event stream. -/
def alJazeeraGuide : List SaxEvent :=
  [.startE "channel" [("id", "aljazeera")],
   .startE "display-name" [],
   .charsE "Al Jazeera",
   .endE "display-name",
   .endE "channel"]

/-- The C7 scenario's playlist channel: `tvg-id="ESPN.us"`. -/
def espnChannel : PlaylistChannel :=
  { tvgId := some "ESPN.us", tvgName := none, name := none }

/-- Guide document with one channel `id="espn.us"` showing `ESPN`, as a
SAX event stream. -/
def espnGuide : List SaxEvent :=
  [.startE "channel" [("id", "espn.us")],
   .startE "display-name" [],
   .charsE "ESPN",
   .endE "display-name",
   .endE "channel"]

/-- A one-entry mapping used by the closed witnesses. -/
def smallMapping : List (String × String) := [("x", "X")]

/-- A guide stream whose only channel does not match `smallMapping` and
which contains no programme nodes. -/
def quietStream : List SaxEvent :=
  [.startE "channel" [("id", "zzz")],
   .startE "display-name" [],
   .charsE "Z",
   .endE "display-name",
   .endE "channel"]

/-- A guide stream consisting of one programme node whose channel is not
a key of `smallMapping`. -/
def unmappedProgStream : List SaxEvent :=
  [.startE "programme" [("channel", "zzz"), ("start", "s"), ("stop", "t")],
   .endE "programme"]

/-! ### Claim theorems -/

/-- C1: for every guide document parsed by `EPGChannelCollector`, every
entry of the resulting index has an empty display-name set (`characters`
discards all text, so the `hasattr` guard in `endElement` never fires),
and consequently the display-name tier of `create_id_mapping` adds no
mapping entry: on such an index the matcher coincides with its
exact-id-tier-only restriction. -/
theorem claim_C1_empty_names_and_inert_name_tier (evs : List SaxEvent) :
    ((collectRun evs).channel_data.all (fun p => p.2.names.isEmpty)) = true ∧
    ∀ chans : List PlaylistChannel,
      create_id_mapping chans (collectRun evs).channel_data
        = create_id_mapping_exact chans (collectRun evs).channel_data := by
  have hinv := collectRun_inv evs
  have hidx : ∀ p ∈ (collectRun evs).channel_data, p.2.names = ([] : List String) := by
    intro p hp
    rw [hinv.2.1 p hp]
  constructor
  · rw [List.all_eq_true]
    intro p hp
    rw [hidx p hp]
    rfl
  · intro chans
    exact create_id_mapping_eq_exact chans (collectRun evs).channel_data hidx

/-- C2 counterexample: the claim fails in two ways. A single playlist
channel (`tvg-id="X"`, `name="foo"`) claims both guide entries `g1` and
`g2` through the display-name tier, so the playlist id `X` is bound to
two guide ids; and a guide entry already bound to one playlist channel is
not removed from the pool — a later channel (`tvg-id="b"`,
`tvg-name="a"`) rebinds guide id `a`, overwriting the first binding. -/
theorem claim_C2_counterexample :
    create_id_mapping [{ tvgId := some "X", tvgName := none, name := some "foo" }]
        [("g1", { gid := "g1", names := ["foo"] }), ("g2", { gid := "g2", names := ["foo"] })]
      = [("g1", "X"), ("g2", "X")] ∧
    ¬ ((create_id_mapping [{ tvgId := some "X", tvgName := none, name := some "foo" }]
        [("g1", { gid := "g1", names := ["foo"] }),
         ("g2", { gid := "g2", names := ["foo"] })]).map Prod.snd).Nodup ∧
    create_id_mapping
        [{ tvgId := some "a", tvgName := none, name := none },
         { tvgId := some "b", tvgName := some "a", name := none }]
        [("a", { gid := "a", names := [] })]
      = [("a", "b")] := by
  refine ⟨by decide, by decide, by decide⟩

/-- C2 as amended: the mapping is a dict keyed by guide id, so each guide
id is bound to at most one playlist id (its key list is duplicate-free);
but a playlist id may be bound to several guide ids, and a mapped guide
entry stays in the candidate pool, where a later playlist channel can
rebind it. -/
theorem claim_C2_amended_guide_ids_unique (channels : List PlaylistChannel)
    (index : List (String × GuideChannel)) :
    ((create_id_mapping channels index).map Prod.fst).Nodup :=
  create_id_mapping_keys_nodup channels index

/-- C3 counterexample: `get_channel_aliases` produces no suffix-stripped
variant — `"aljazeera"` is not among the aliases of the channel named
`Al Jazeera HD` — and on the guide document parsed by the collector (whose
display names are lost) the pair does not match at all: the mapping is
empty. -/
theorem claim_C3_counterexample :
    (get_channel_aliases alJazeeraChannel).contains "aljazeera" = false ∧
    get_channel_aliases alJazeeraChannel = ["aj1", "al jazeera hd"] ∧
    create_id_mapping [alJazeeraChannel] (collectRun alJazeeraGuide).channel_data = [] := by
  refine ⟨by decide, by decide, by decide⟩

/-- C3 as amended: normalization only lowercases and strips the fields
(no "hd" suffix removal), so the only aliases are `aj1` and
`al jazeera hd`; the pair still matches if the guide index carries the
display name `al jazeera`, because the display-name tier accepts
substring containment (`"al jazeera" in "al jazeera hd"`), binding
`aljazeera` to the channel's `tvg-id`. -/
theorem claim_C3_amended_substring_match :
    create_id_mapping [alJazeeraChannel]
        [("aljazeera", { gid := "aljazeera", names := ["al jazeera"] })]
      = [("aljazeera", "aj1")] := by
  decide

/-- C4 counterexample: with an empty id mapping `generate_epg` returns
before the filter stage and writes no document at all (here: an empty
playlist forces an empty mapping, and the run's output is `none`, not an
empty framed document). -/
theorem claim_C4_counterexample :
    create_id_mapping [] (collectRun []).channel_data = [] ∧
    generate_epg_output [] [] = none := by
  refine ⟨by decide, by decide⟩

/-- C4 as amended: when the mapping is non-empty but nothing in the
document matches it (no mapped channel or programme open, no programme
close — a programme close would emit a stray closing tag — and the empty
string is not a key), `filter_epg` still writes a syntactically valid
document: declaration, document-type marker and the empty `tv` wrapper.
With an empty mapping, however, `generate_epg` exits without output. -/
theorem claim_C4_amended_zero_matches (evs : List SaxEvent) (m : List (String × String))
    (hm : m ≠ []) (h0 : dictMem m "" = false)
    (hq : ∀ e ∈ evs, quietEvent m e = true) :
    filter_epg_output evs m = epgHeader ++ "</tv>\n" := by
  unfold filter_epg_output
  rw [runFilter_quiet m h0 evs hq]
  have h1 : renderToks initFilter.out = "" := rfl
  rw [h1, String.append_empty]

theorem claim_C4_amended_zero_matches_witness :
    filter_epg_output quietStream smallMapping = epgHeader ++ "</tv>\n" :=
  claim_C4_amended_zero_matches quietStream smallMapping (by decide) (by decide) (by decide)

/-- C5 counterexample: with an empty playlist the run does not abort
before guide work — the trace still contains the guide download and the
index build. -/
theorem claim_C5_counterexample :
    Stage.downloadGuide ∈ generate_epg_trace [] [] ∧
    Stage.buildIndex ∈ generate_epg_trace [] [] := by
  refine ⟨by decide, by decide⟩

/-- C5 as amended: with zero playlist channels the run still downloads
the guide, builds the index and computes the (empty) mapping; only then
does the empty-mapping guard stop it, skipping the filter stage. -/
theorem claim_C5_amended_empty_playlist_trace (guide : List SaxEvent) :
    generate_epg_trace [] guide
      = [Stage.fetchPlaylist, Stage.downloadGuide, Stage.buildIndex, Stage.createMapping] := by
  simp [generate_epg_trace, create_id_mapping]

/-- C6: when the same lowercased channel id occurs on several channel
nodes, the index the collector builds is the one that keeps the
first-seen occurrence and ignores later duplicates: the collector's run
coincides with the first-seen insertion run on every event stream (the
overwrite is value-identical because every stored record is determined by
its key). -/
theorem claim_C6_first_seen_occurrence (evs : List SaxEvent) :
    (collectRun evs).channel_data = (collectFirstRun evs).channel_data := by
  rw [collectRun_eq_first]

/-- C7: playlist `tvg-id="ESPN.us"` against guide id `espn.us`: the
exact-id tier matches case-insensitively, and the filtered output's
channel node carries `id="ESPN.us"` — the playlist's original-case
identifier, verbatim. -/
theorem claim_C7_exact_id_preserves_case :
    create_id_mapping [espnChannel] (collectRun espnGuide).channel_data
      = [("espn.us", "ESPN.us")] ∧
    filter_epg_output espnGuide [("espn.us", "ESPN.us")]
      = epgHeader ++ "<channel id=\"ESPN.us\"><display-name>ESPN</display-name></channel>"
        ++ "</tv>\n" := by
  refine ⟨by decide, by decide⟩

/-- C8: filter conservativeness — every channel or programme open tag the
filter writes carries an identifier drawn from the mapping's value set;
no node with an unmapped identifier is ever emitted. -/
theorem claim_C8_filter_conservative (evs : List SaxEvent) (m : List (String × String))
    (t : OutTok) (ht : t ∈ (runFilter evs m).out) : tokOk m t :=
  (runFilter_tokInv evs m).1 t ht

theorem claim_C8_filter_conservative_witness :
    tokOk [("espn.us", "ESPN.us")] (OutTok.chanOpen "ESPN.us") :=
  claim_C8_filter_conservative espnGuide [("espn.us", "ESPN.us")]
    (OutTok.chanOpen "ESPN.us") (by decide)

/-- C9: the filter emits one `</programme>` per programme `endElement`
event regardless of the mapping, while programme open tags are emitted
only for mapped programmes; on a balanced stream that the filter has
fully flushed, the output therefore contains exactly one unmatched
closing programme tag per unmapped programme node. -/
theorem claim_C9_unmatched_programme_closes (evs : List SaxEvent)
    (m : List (String × String))
    (hbal : countEv isEndProg evs = countEv isStartProg evs)
    (hflushed : (runFilter evs m).buffer = []) :
    countTok isCloseProg (runFilter evs m).out
      = countTok isProgOpen (runFilter evs m).out + countEv (isUnmappedStartProg m) evs := by
  obtain ⟨hc1, _⟩ := runFilter_close_count evs m
  have ho := runFilter_open_count evs m
  rw [hflushed] at ho
  have h0 : countTok isProgOpen ([] : List OutTok) = 0 := rfl
  rw [h0] at ho
  have hsplit := countEv_start_split m evs
  omega

theorem claim_C9_unmatched_programme_closes_witness :
    countTok isCloseProg (runFilter unmappedProgStream smallMapping).out
      = countTok isProgOpen (runFilter unmappedProgStream smallMapping).out
        + countEv (isUnmappedStartProg smallMapping) unmappedProgStream :=
  claim_C9_unmatched_programme_closes unmappedProgStream smallMapping (by decide) (by decide)

/-- C10: both normalized forms the alias generator produces are
idempotent: `lower∘strip` applied twice equals once, and the compact
`[a-z0-9]`-only form applied twice equals once, for every input string. -/
theorem claim_C10_normalization_idempotent (s : String) :
    pyLowerStrip (pyLowerStrip s) = pyLowerStrip s ∧
    pyCompact (pyCompact s) = pyCompact s := by
  constructor
  · show (⟨stripL (lowerL (stripL (lowerL s.data)))⟩ : String) = ⟨stripL (lowerL s.data)⟩
    rw [lowerL_stripL_lowerL, stripL_idem]
  · show (⟨(lowerL ((lowerL s.data).filter compactChar)).filter compactChar⟩ : String)
      = ⟨(lowerL s.data).filter compactChar⟩
    rw [lowerL_filter_compact, filter_filter_self]

end PearTv
